import Mathlib

/-
Verification of the ticket-to-pr orchestration core against its source.

The embedding below translates the TypeScript source into Lean:
  * `src/lib/utils.ts` (bundled into the repo alongside `notion.ts`):
    `clamp`, `extractJsonFromOutput`, `removeWorktree`, `getDefaultBranch`
  * `src/lib/projects.ts`: `getProjectDir`, `getProjectNames`, ...
  * `index.ts` (the orchestration core): `runReviewAgent`'s result
    normalization, `runExecuteAgent`'s gate pipeline, `handleTicket`,
    `clearStaleLocks`, `poll`.

JavaScript numbers are modelled as rationals (ℚ); `NaN` is modelled
explicitly where it can arise (the result of `Number(x)`).  Effectful
calls (child processes, filesystem, the board API) are modelled by
oracle environments recording each call's outcome, and functions return
an explicit trace of the externally visible actions they perform
together with an `Except` value standing for normal return vs. a thrown
exception.
-/

namespace TicketToPR

/-! ## Configuration constants (config.ts) -/

/-- Column names from `CONFIG.COLUMNS` in config.ts. -/
structure ColumnsCfg where
  review : String
  scored : String
  execute : String
  inProgress : String
  done : String
  failed : String
deriving DecidableEq

def COLUMNS : ColumnsCfg :=
  { review := "Review", scored := "Scored", execute := "Execute",
    inProgress := "In Progress", done := "Done", failed := "Failed" }

/-- Scheduler-relevant configuration knobs from config.ts.  The source reads
the module-level `CONFIG` constant; the definitions below are parametrised by
a `Config` value and `theConfig` is the constant actually shipped. -/
structure Config where
  maxConcurrentAgents : Nat
  staleLockMs : Int
  reviewMaxTurns : Nat

def theConfig : Config :=
  { maxConcurrentAgents := 3, staleLockMs := 30 * 60 * 1000, reviewMaxTurns := 15 }

/-! ## JSON values and JavaScript coercions

`JSON.parse` produces JavaScript values; agent output fields run through
`Number(...)`, truthiness tests and `String(...)`.  Numbers are rationals. -/

inductive Json where
  | null : Json
  | bool (b : Bool) : Json
  | num (q : ℚ) : Json
  | str (s : String) : Json
  | arr (elems : List Json) : Json
  | obj (fields : List (String × Json)) : Json

/-- Property access `v[key]` on a parsed JSON value: `undefined` (here `none`)
unless `v` is an object with the key; first matching key wins as in JS. -/
def objGet (v : Json) (key : String) : Option Json :=
  match v with
  | .obj fields => (fields.find? (fun f => f.1 == key)).map (·.2)
  | _ => none

/-- Result of the JavaScript coercion `Number(x)`: either NaN or a number. -/
inductive JsNum where
  | nan : JsNum
  | num (q : ℚ) : JsNum
deriving DecidableEq

/-- Ten to a natural power, as an integer. -/
def tenPow : Nat → Int
  | 0 => 1
  | n + 1 => 10 * tenPow n

/-- Value of a list of decimal digit characters. -/
def digitsToInt (ds : List Char) : Int :=
  ds.foldl (fun acc c => acc * 10 + ((c.toNat - 48 : Nat) : Int)) 0

/-- The rational `sign * (intVal + fracVal / 10^fracLen) * 10^e`, i.e. the
value of a decimal literal with optional fraction and exponent. -/
def decToRat (sign intVal fracVal : Int) (fracLen : Nat) (e : Int) : ℚ :=
  let m : Int := sign * (intVal * tenPow fracLen + fracVal)
  if (fracLen : Int) ≤ e then Rat.divInt (m * tenPow (e - (fracLen : Int)).toNat) 1
  else Rat.divInt m (tenPow ((fracLen : Int) - e).toNat)

/-- JavaScript string-to-number coercion for the strings that can occur in
JSON fields: optional sign, digits, optional fraction, optional exponent;
empty/whitespace-only strings coerce to 0, everything else to NaN.
(`Infinity` literals are outside the rational model and coerce to NaN here;
no claim depends on them.) -/
def strToNumber (s : String) : JsNum :=
  let ws : Char → Bool := fun c => c = ' ' ∨ c = '\t' ∨ c = '\n' ∨ c = '\r'
  let cs := s.data.dropWhile ws
  let cs := (cs.reverse.dropWhile ws).reverse
  if cs.isEmpty then .num 0 else
  let (sign, cs) : Int × List Char :=
    match cs with
    | '-' :: rest => (-1, rest)
    | '+' :: rest => (1, rest)
    | _ => (1, cs)
  let digits := cs.takeWhile (·.isDigit)
  let rest := cs.dropWhile (·.isDigit)
  let parseExp : List Char → Option Int := fun ecs =>
    match ecs with
    | [] => some 0
    | 'e' :: etl | 'E' :: etl =>
      let (esign, etl) : Int × List Char :=
        match etl with
        | '-' :: r => (-1, r)
        | '+' :: r => (1, r)
        | _ => (1, etl)
      let edigits := etl.takeWhile (·.isDigit)
      if edigits.isEmpty ∨ ¬ (etl.dropWhile (·.isDigit)).isEmpty then none
      else some (esign * digitsToInt edigits)
    | _ => none
  match rest with
  | '.' :: frac =>
    let fdigits := frac.takeWhile (·.isDigit)
    let frest := frac.dropWhile (·.isDigit)
    if digits.isEmpty ∧ fdigits.isEmpty then .nan
    else
      match parseExp frest with
      | some e => .num (decToRat sign (digitsToInt digits) (digitsToInt fdigits) fdigits.length e)
      | none => .nan
  | _ =>
    if digits.isEmpty then .nan
    else
      match parseExp rest with
      | some e => .num (decToRat sign (digitsToInt digits) 0 0 e)
      | none => .nan

/-- JavaScript `Number(x)` on a possibly-absent JSON value (`none` stands for
`undefined`).  Arrays coerce through their string form: `[] → 0`, a
single-element array coerces like its element (one level; deeper nesting is
approximated as NaN, no claim depends on it), longer arrays give NaN; plain
objects give NaN. -/
def toNumber : Option Json → JsNum
  | none => .nan
  | some .null => .num 0
  | some (.bool b) => .num (if b then 1 else 0)
  | some (.num q) => .num q
  | some (.str s) => strToNumber s
  | some (.arr []) => .num 0
  | some (.arr [.null]) => .num 0
  | some (.arr [.bool b]) => .num (if b then 1 else 0)
  | some (.arr [.num q]) => .num q
  | some (.arr [.str s]) => strToNumber s
  | some (.arr [_]) => .nan
  | some (.arr (_ :: _ :: _)) => .nan
  | some (.obj _) => .nan

/-- JavaScript truthiness of a JSON value (`!v` is `true` exactly on these). -/
def jsFalsy : Json → Bool
  | .null => true
  | .bool b => !b
  | .num q => q = 0
  | .str s => s = ""
  | _ => false

/-- JavaScript `String(x)` restricted to JSON values.  Number formatting is
approximated by the rational's canonical form; no claim depends on it. -/
def jsToString : Json → String
  | .null => "null"
  | .bool b => if b then "true" else "false"
  | .num q => toString q
  | .str s => s
  | .arr _ => ""
  | .obj _ => "[object Object]"

/-! ## utils.ts: clamp -/

/-- utils.ts: `clamp(val, min, max) = Math.max(min, Math.min(max, val))`.
Neither argument is ever NaN at the call sites (the `|| 5` default has
already replaced NaN), so the rational model is exact. -/
def clamp (val lo hi : ℚ) : ℚ :=
  max lo (min hi val)

/-! ## index.ts: review result normalization (runReviewAgent) -/

/-- Normalized review output record (`ReviewOutput` in config.ts). -/
structure ReviewOutput where
  easeScore : ℚ
  confidenceScore : ℚ
  spec : String
  impactReport : String
  affectedFiles : List String
  risks : Option String

/-- index.ts, `runReviewAgent`: `clamp(Number(x) || 5, 1, 10)`.  The `|| 5`
applies the default whenever `Number(x)` is falsy, i.e. NaN or 0. -/
def normalizeScore (x : JsNum) : ℚ :=
  clamp (match x with
         | .nan => 5
         | .num q => if q = 0 then 5 else q) 1 10

/-- index.ts, `runReviewAgent` lines building `results : ReviewOutput` from
the parsed agent output object. -/
def reviewResultOfParsed (parsed : Json) : ReviewOutput :=
  { easeScore := normalizeScore (toNumber (objGet parsed "easeScore"))
    confidenceScore := normalizeScore (toNumber (objGet parsed "confidenceScore"))
    spec := match objGet parsed "spec" with
            | some .null | none => ""
            | some v => jsToString v
    impactReport := match objGet parsed "impactReport" with
                    | some .null | none => ""
                    | some v => jsToString v
    affectedFiles := match objGet parsed "affectedFiles" with
                     | some (.arr xs) => xs.map jsToString
                     | _ => []
    risks := match objGet parsed "risks" with
             | some v => if jsFalsy v then none else some (jsToString v)
             | none => none }

/-! ## utils.ts: extractJsonFromOutput

`JSON.parse` is modelled by a small executable JSON parser over `List Char`
(objects, arrays, strings with escapes, numbers, booleans, null, per the
JSON grammar); the two regular expressions of `extractJsonFromOutput` are
modelled by direct scanning functions implementing their documented
semantics. -/

/-- JSON whitespace accepted by `JSON.parse` between tokens. -/
def jsonWs (c : Char) : Bool :=
  c = ' ' ∨ c = '\t' ∨ c = '\n' ∨ c = '\r'

def skipWs (cs : List Char) : List Char :=
  cs.dropWhile jsonWs

def hexVal (c : Char) : Option Nat :=
  if '0' ≤ c ∧ c ≤ '9' then some (c.toNat - 48)
  else if 'a' ≤ c ∧ c ≤ 'f' then some (c.toNat - 87)
  else if 'A' ≤ c ∧ c ≤ 'F' then some (c.toNat - 55)
  else none

/-- Body of a JSON string after the opening quote: content and remainder.
Escape sequences are decoded; raw control characters are rejected as in
`JSON.parse`. -/
def parseStringBody : Nat → List Char → Option (List Char × List Char)
  | 0, _ => none
  | fuel + 1, cs =>
    match cs with
    | [] => none
    | '"' :: rest => some ([], rest)
    | '\\' :: esc =>
      let cont : Char → List Char → Option (List Char × List Char) := fun c r =>
        (parseStringBody fuel r).map (fun p => (c :: p.1, p.2))
      match esc with
      | '"' :: r => cont '"' r
      | '\\' :: r => cont '\\' r
      | '/' :: r => cont '/' r
      | 'b' :: r => cont (Char.ofNat 8) r
      | 'f' :: r => cont (Char.ofNat 12) r
      | 'n' :: r => cont '\n' r
      | 'r' :: r => cont '\r' r
      | 't' :: r => cont '\t' r
      | 'u' :: h1 :: h2 :: h3 :: h4 :: r =>
        match hexVal h1, hexVal h2, hexVal h3, hexVal h4 with
        | some a, some b, some c, some d =>
          cont (Char.ofNat (((a * 16 + b) * 16 + c) * 16 + d)) r
        | _, _, _, _ => none
      | _ => none
    | c :: rest =>
      if c.toNat < 32 then none
      else (parseStringBody fuel rest).map (fun p => (c :: p.1, p.2))

/-- Optional JSON exponent suffix: its value and the remainder. -/
def parseExpSuffix (cs : List Char) : Option (Int × List Char) :=
  match cs with
  | 'e' :: tl | 'E' :: tl =>
    let (esign, tl) : Int × List Char :=
      match tl with
      | '-' :: r => (-1, r)
      | '+' :: r => (1, r)
      | _ => (1, tl)
    let ds := tl.takeWhile (·.isDigit)
    if ds.isEmpty then none
    else some (esign * digitsToInt ds, tl.dropWhile (·.isDigit))
  | _ => some (0, cs)

/-- JSON number token per the JSON grammar:
`-? (0 | [1-9][0-9]*) (. [0-9]+)? ([eE][+-]?[0-9]+)?`. -/
def parseNumberToken (cs : List Char) : Option (ℚ × List Char) :=
  let (sign, cs1) : Int × List Char :=
    match cs with
    | '-' :: r => (-1, r)
    | _ => (1, cs)
  let digits := cs1.takeWhile (·.isDigit)
  let rest := cs1.dropWhile (·.isDigit)
  if digits.isEmpty then none
  else if 1 < digits.length ∧ digits.head? = some '0' then none
  else
    match rest with
    | '.' :: fr =>
      let fd := fr.takeWhile (·.isDigit)
      if fd.isEmpty then none
      else
        match parseExpSuffix (fr.dropWhile (·.isDigit)) with
        | some (e, r2) =>
          some (decToRat sign (digitsToInt digits) (digitsToInt fd) fd.length e, r2)
        | none => none
    | _ =>
      match parseExpSuffix rest with
      | some (e, r2) => some (decToRat sign (digitsToInt digits) 0 0 e, r2)
      | none => none

mutual

/-- JSON value at the head of the input (leading whitespace allowed). -/
def parseValue : Nat → List Char → Option (Json × List Char)
  | 0, _ => none
  | fuel + 1, cs =>
    match skipWs cs with
    | 'n' :: 'u' :: 'l' :: 'l' :: rest => some (.null, rest)
    | 't' :: 'r' :: 'u' :: 'e' :: rest => some (.bool true, rest)
    | 'f' :: 'a' :: 'l' :: 's' :: 'e' :: rest => some (.bool false, rest)
    | '"' :: rest =>
      (parseStringBody (rest.length + 1) rest).map
        (fun p => (.str (String.mk p.1), p.2))
    | '[' :: rest => (parseElems fuel rest).map (fun p => (.arr p.1, p.2))
    | c :: rest =>
      if c = Char.ofNat 123 then
        (parseMembers fuel rest).map (fun p => (.obj p.1, p.2))
      else
        (parseNumberToken (c :: rest)).map (fun p => (.num p.1, p.2))
    | [] => none

/-- Elements of a JSON array after the opening bracket. -/
def parseElems : Nat → List Char → Option (List Json × List Char)
  | 0, _ => none
  | fuel + 1, cs =>
    match skipWs cs with
    | ']' :: rest => some ([], rest)
    | cs1 =>
      match parseValue fuel cs1 with
      | none => none
      | some (v, rest) =>
        match skipWs rest with
        | ',' :: rest2 =>
          (parseElems fuel rest2).bind
            (fun p => match p.1 with
                      | [] => none
                      | _ => some (v :: p.1, p.2))
        | ']' :: rest2 => some ([v], rest2)
        | _ => none

/-- Members of a JSON object after the opening brace. -/
def parseMembers : Nat → List Char → Option (List (String × Json) × List Char)
  | 0, _ => none
  | fuel + 1, cs =>
    match skipWs cs with
    | c :: rest =>
      if c = Char.ofNat 125 then some ([], rest)
      else if c = '"' then
        match parseStringBody (rest.length + 1) rest with
        | none => none
        | some (key, rest1) =>
          match skipWs rest1 with
          | ':' :: rest2 =>
            match parseValue fuel rest2 with
            | none => none
            | some (v, rest3) =>
              match skipWs rest3 with
              | ',' :: rest4 =>
                (parseMembers fuel rest4).bind
                  (fun p => match p.1 with
                            | [] => none
                            | _ => some ((String.mk key, v) :: p.1, p.2))
              | c2 :: rest4 =>
                if c2 = Char.ofNat 125 then some ([(String.mk key, v)], rest4)
                else none
              | [] => none
          | _ => none
      else none
    | [] => none

end

/-- Model of `JSON.parse`: a single JSON value covering the whole input up
to trailing whitespace. -/
def jsonParse (s : String) : Option Json :=
  match parseValue (s.data.length + 1) s.data with
  | some (v, rest) => if (skipWs rest).isEmpty then some v else none
  | none => none

/-- The backquote character delimiting fenced code blocks. -/
def backquote : Char := Char.ofNat 96

/-- A code fence: three backquotes. -/
def fenceDelim : List Char := [backquote, backquote, backquote]

/-- JavaScript regex whitespace class `\s` (the members that can occur in
agent transcripts). -/
def jsWs (c : Char) : Bool :=
  c = ' ' ∨ c = '\t' ∨ c = '\n' ∨ c = '\r' ∨ c = Char.ofNat 11 ∨ c = Char.ofNat 12

/-- Index of the first occurrence of `pat` as a contiguous subsequence. -/
def indexOfSub : Nat → List Char → List Char → Option Nat
  | 0, _, _ => none
  | fuel + 1, pat, cs =>
    if pat.isPrefixOf cs then some 0
    else
      match cs with
      | [] => none
      | _ :: tl => (indexOfSub fuel pat tl).map (· + 1)

/-- Indices of `'\n'` within `run`, largest first (the greedy order in which
`\s*\n` tries to split a whitespace run). -/
def newlineIdxsDesc (run : List Char) : List Nat :=
  ((List.range run.length).filter (fun i => run.getD i ' ' = '\n')).reverse

/-- Match of the fenced-block regex `(?:json)?\s*\n([\s\S]*?)\n` + closing
fence, starting right after an opening fence: the lazily captured body and
the remainder after the closing fence. -/
def matchFenceBody (cand : List Char) : Option (List Char × List Char) :=
  let run := cand.takeWhile jsWs
  (newlineIdxsDesc run).findSome? (fun k =>
    let after := cand.drop (k + 1)
    match indexOfSub (after.length + 1) ('\n' :: fenceDelim) after with
    | some idx => some (after.take idx, after.drop (idx + 4))
    | none => none)

/-- Match of the whole fenced-block regex at the current position; on
success returns the captured body and the remainder after the match. -/
def matchFenceAt (cs : List Char) : Option (List Char × List Char) :=
  if fenceDelim.isPrefixOf cs then
    let rest := cs.drop 3
    let cands : List (List Char) :=
      if ("json".data).isPrefixOf rest then [rest.drop 4, rest] else [rest]
    cands.findSome? matchFenceBody
  else none

/-- All captures of the global fenced-block regex, left to right,
non-overlapping (`regex.exec` loop in `extractJsonFromOutput`). -/
def findFences : Nat → List Char → List (List Char)
  | 0, _ => []
  | fuel + 1, cs =>
    match matchFenceAt cs with
    | some (cap, rest) => cap :: findFences fuel rest
    | none =>
      match cs with
      | [] => []
      | _ :: tl => findFences fuel tl

/-- The pattern `"easeScore"` (with quotes) looked for by the raw-object
regex. -/
def easeScorePat : List Char := '"' :: ("easeScore".data ++ ['"'])

/-- Index of the last occurrence of `c`. -/
def lastIdxOf (c : Char) (cs : List Char) : Option Nat :=
  match cs.reverse.findIdx? (· = c) with
  | some r => some (cs.length - 1 - r)
  | none => none

/-- Match of the raw-object regex `\x7b[\s\S]*"easeScore"[\s\S]*\x7d`: it
starts at the first opening brace, requires an `"easeScore"` occurrence
after it, and extends greedily to the last closing brace that still leaves
room for that occurrence. -/
def rawScrapeEase (cs : List Char) : Option (List Char) :=
  match cs.findIdx? (· = Char.ofNat 123) with
  | none => none
  | some i0 =>
    let tail := cs.drop (i0 + 1)
    match indexOfSub (tail.length + 1) easeScorePat tail with
    | none => none
    | some dj =>
      match lastIdxOf (Char.ofNat 125) cs with
      | none => none
      | some k =>
        if i0 + 1 + dj + easeScorePat.length ≤ k then
          some ((cs.drop i0).take (k + 1 - i0))
        else none

/-- utils.ts `extractJsonFromOutput`: last fenced JSON block, then the whole
text as JSON, then the raw-object regex scrape; `null` (here `none`) when
everything fails. -/
def extractJsonFromOutput (text : String) : Option Json :=
  let cs := text.data
  let fromBlock : Option Json :=
    match (findFences (cs.length + 1) cs).getLast? with
    | some cap => jsonParse (String.mk cap)
    | none => none
  match fromBlock with
  | some v => some v
  | none =>
    match jsonParse text with
    | some v => some v
    | none =>
      match rawScrapeEase cs with
      | some raw => jsonParse (String.mk raw)
      | none => none

/-! ## index.ts: review result parsing (runReviewAgent) -/

/-- The distinct no-result error thrown by `runReviewAgent` when no parse
stage produces a usable result. -/
def noResultErrorMsg (maxTurns : Nat) : String :=
  "Review agent failed to return scores. The agent used all " ++ toString maxTurns ++
    " turns without producing a result. Try simplifying the ticket description or increasing REVIEW_MAX_TURNS in config.ts."

/-- index.ts, `runReviewAgent`:
`const parsed = structuredOutput ?? extractJsonFromOutput(output);
if (!parsed) throw new Error(...)`.  `structuredOutput` is only ever set to
a non-null value, so `none` models undefined. -/
def reviewParse (cfg : Config) (structuredOutput : Option Json) (output : String) :
    Except String Json :=
  let parsed : Option Json :=
    match structuredOutput with
    | some v => some v
    | none => extractJsonFromOutput output
  match parsed with
  | some v =>
    if jsFalsy v then .error (noResultErrorMsg cfg.reviewMaxTurns) else .ok v
  | none => .error (noResultErrorMsg cfg.reviewMaxTurns)

/-! Spec-side parse precedence (refinement target for C7). -/

/-- Stage 2 of the spec's precedence: the last fenced JSON block. -/
def specLastFencedBlock (output : String) : Option Json :=
  ((findFences (output.data.length + 1) output.data).getLast?).bind
    (fun cap => jsonParse (String.mk cap))

/-- Stage 3 of the spec's precedence: the whole text parsed as JSON. -/
def specWholeTextJson (output : String) : Option Json :=
  jsonParse output

/-- Stage 4 of the spec's precedence: the regex scrape for a raw object
containing "easeScore". -/
def specRegexScrape (output : String) : Option Json :=
  (rawScrapeEase output.data).bind (fun raw => jsonParse (String.mk raw))

/-- The spec's fallback precedence, as written: structured output first,
then last fenced JSON block, then whole-text JSON, then regex scrape. -/
def specParsePrecedence (structured : Option Json) (output : String) : Option Json :=
  match structured with
  | some v => some v
  | none =>
    match specLastFencedBlock output with
    | some v => some v
    | none =>
      match specWholeTextJson output with
      | some v => some v
      | none => specRegexScrape output

/-- The code's three-stage extraction agrees with the spec's chain of
transcript stages (shared helper for the precedence claim). -/
theorem extract_eq_stages (out : String) :
    extractJsonFromOutput out = specParsePrecedence none out := by
  simp only [extractJsonFromOutput, specParsePrecedence, specLastFencedBlock,
    specWholeTextJson, specRegexScrape]
  cases (findFences (out.data.length + 1) out.data).getLast? with
  | none =>
    cases jsonParse out with
    | none =>
      cases rawScrapeEase out.data with
      | none => simp
      | some raw => simp
    | some v => simp
  | some cap =>
    cases h : jsonParse (String.mk cap) with
    | none =>
      simp only [Option.some_bind, h]
      cases jsonParse out with
      | none =>
        cases rawScrapeEase out.data with
        | none => simp
        | some raw => simp
      | some v => simp
    | some v => simp only [Option.some_bind, h]

/-! ## Claim C7: review result fallback precedence -/

/-- C7: result parsing follows the precedence structured output > last JSON
code block in the transcript (the last block wins over earlier ones) >
whole text parsed as JSON > regex scrape for a raw object containing
"easeScore", and the distinct no-result error is raised exactly when this
chain yields nothing usable.  The concrete conjuncts pin each stage:
structured output overriding a transcript block, the last of two fenced
blocks winning, the whole text as JSON, the raw-object scrape, and the
all-fail case raising the no-result error. -/
theorem review_parse_fallback_precedence :
    (∀ (cfg : Config) (structured : Option Json) (out : String),
       reviewParse cfg structured out =
         match specParsePrecedence structured out with
         | some v =>
           if jsFalsy v then .error (noResultErrorMsg cfg.reviewMaxTurns) else .ok v
         | none => .error (noResultErrorMsg cfg.reviewMaxTurns)) ∧
    reviewParse theConfig (some (.obj [("easeScore", .num 3)]))
        "```json\n\x7b\"easeScore\": 9\x7d\n```" =
      .ok (.obj [("easeScore", .num 3)]) ∧
    extractJsonFromOutput
        "```json\n\x7b\"easeScore\": 1\x7d\n```\nMiddle\n```json\n\x7b\"easeScore\": 9\x7d\n```" =
      some (.obj [("easeScore", .num 9)]) ∧
    extractJsonFromOutput "\x7b\"easeScore\": 5, \"confidenceScore\": 7\x7d" =
      some (.obj [("easeScore", .num 5), ("confidenceScore", .num 7)]) ∧
    extractJsonFromOutput
        "The scores are \x7b\"easeScore\": 7, \"confidenceScore\": 6\x7d for this." =
      some (.obj [("easeScore", .num 7), ("confidenceScore", .num 6)]) ∧
    extractJsonFromOutput "```json\nnot valid json\n```" = none ∧
    reviewParse theConfig none "just plain text" =
      .error (noResultErrorMsg 15) := by
  refine ⟨?_, rfl, rfl, rfl, rfl, rfl, rfl⟩
  intro cfg structured out
  cases structured with
  | some s => rfl
  | none =>
    rw [← extract_eq_stages]
    exact rfl

/-! ## Claim C6 and C10: score normalization -/

/-- C6 (counterexample): the claim that the normalized scores are always
*integers* in [1,10] for any numeric input fails on the code: the numeric
input 15/2 = 7.5 is truthy, survives `Number(x) || 5` unchanged, and
`clamp` does not round, so the resulting score is 15/2, whose reduced
denominator is 2 — not an integer. -/
theorem review_score_not_always_integer :
    normalizeScore (.num (15 / 2)) = 15 / 2 ∧
    (normalizeScore (.num (15 / 2))).den = 2 := by
  have h : (15 / 2 : ℚ) = Rat.divInt 15 2 := by rw [Rat.divInt_eq_div]; norm_num
  constructor
  · rw [h]; exact rfl
  · rw [h]; exact rfl

/-- C6 (amended): the review runner's score normalization always produces
`easeScore` and `confidenceScore` in the interval [1,10] for any input, and
the result is an integer whenever the coerced input is an integer or
malformed (NaN): 15 clamps to 10, −3 clamps to 1, a non-numeric input such
as "abc" or a missing field defaults to 5; a missing `affectedFiles` field
defaults to the empty list.  (A non-integer numeric input such as 7.5 stays
non-integral, see the counterexample.) -/
theorem review_score_normalization_bounds :
    (∀ parsed : Json,
       1 ≤ (reviewResultOfParsed parsed).easeScore ∧
       (reviewResultOfParsed parsed).easeScore ≤ 10 ∧
       1 ≤ (reviewResultOfParsed parsed).confidenceScore ∧
       (reviewResultOfParsed parsed).confidenceScore ≤ 10) ∧
    (∀ n : ℤ, (normalizeScore (.num (n : ℚ))).den = 1) ∧
    (normalizeScore .nan).den = 1 ∧
    normalizeScore (.num 15) = 10 ∧
    normalizeScore (.num (-3)) = 1 ∧
    normalizeScore (toNumber (some (.str "abc"))) = 5 ∧
    normalizeScore (toNumber none) = 5 ∧
    (reviewResultOfParsed (.obj [("easeScore", .num 7)])).affectedFiles = [] := by
  refine ⟨?_, ?_, rfl, rfl, rfl, rfl, rfl, rfl⟩
  · intro parsed
    refine ⟨le_max_left _ _, max_le (by norm_num) (min_le_left _ _),
            le_max_left _ _, max_le (by norm_num) (min_le_left _ _)⟩
  · intro n
    by_cases h : (n : ℚ) = 0
    · show (clamp (if (n : ℚ) = 0 then 5 else (n : ℚ)) 1 10).den = 1
      rw [if_pos h]
      exact rfl
    · show (clamp (if (n : ℚ) = 0 then 5 else (n : ℚ)) 1 10).den = 1
      rw [if_neg h]
      have hcast : clamp (n : ℚ) 1 10 = ((max 1 (min 10 n) : ℤ) : ℚ) := by
        unfold clamp; push_cast; ring_nf
      rw [hcast, Rat.den_intCast]

/-- C10: an agent-reported score of exactly 0 normalizes to the default 5,
not to the clamped lower bound 1, because `Number(x) || 5` treats the valid
numeric value 0 as falsy and substitutes the default before clamping. -/
theorem zero_score_normalizes_to_default :
    (reviewResultOfParsed
        (.obj [("easeScore", .num 0), ("confidenceScore", .num 0)])).easeScore = 5 ∧
    (reviewResultOfParsed
        (.obj [("easeScore", .num 0), ("confidenceScore", .num 0)])).confidenceScore = 5 ∧
    normalizeScore (.num 0) = 5 := ⟨rfl, rfl, rfl⟩

/-! ## projects.ts: the project registry -/

/-- One entry of projects.json (`ProjectEntry` in projects.ts). -/
structure ProjectEntry where
  directory : String
  buildCommand : Option String
  baseBranch : Option String
  blockedFiles : List String
  skipPR : Bool
deriving DecidableEq

/-- The parsed projects.json: names to entries, in key order. -/
abbrev ProjectsFile := List (String × ProjectEntry)

def getProjectDir (ps : ProjectsFile) (name : String) : Option String :=
  (ps.find? (fun p => p.1 == name)).map (fun p => p.2.directory)

def getProjectNames (ps : ProjectsFile) : List String :=
  ps.map (·.1)

def getBuildCommand (ps : ProjectsFile) (name : String) : Option String :=
  (ps.find? (fun p => p.1 == name)).bind (fun p => p.2.buildCommand)

def getBaseBranch (ps : ProjectsFile) (name : String) : Option String :=
  (ps.find? (fun p => p.1 == name)).bind (fun p => p.2.baseBranch)

def getBlockedFiles (ps : ProjectsFile) (name : String) : List String :=
  ((ps.find? (fun p => p.1 == name)).map (fun p => p.2.blockedFiles)).getD []

def getSkipPR (ps : ProjectsFile) (name : String) : Bool :=
  ((ps.find? (fun p => p.1 == name)).map (fun p => p.2.skipPR)).getD false

/-- JavaScript falsiness of an optional string: `!x` is true when `x` is
`undefined` or the empty string (`if (!getProjectDir(...))` in index.ts). -/
def jsFalsyOptStr : Option String → Bool
  | none => true
  | some s => s = ""

/-! ## index.ts: the in-flight registry (`activeLocks`) and `handleTicket`

`activeLocks` is a JavaScript `Map` (string keys, insertion order);
it is modelled as an association list.  Between the `has` check and the
`set` in `handleTicket` there is no `await` on the locking path, so the
check-then-set pair is atomic on the event loop and `handleTicket` is
modelled as an atomic transition that also reports the intermediate
registry states produced by its `set` and `delete`. -/

inductive Mode where
  | review
  | execute
deriving DecidableEq

/-- `LockEntry` from config.ts. -/
structure LockEntry where
  mode : Mode
  startedAt : Int
deriving DecidableEq

abbrev Registry := List (String × LockEntry)

/-- `Map.has`. -/
def Registry.hasKey (r : Registry) (k : String) : Bool :=
  r.any (fun e => e.1 == k)

/-- `Map.set`: replace in place if present, else append. -/
def Registry.set (r : Registry) (k : String) (v : LockEntry) : Registry :=
  if r.hasKey k then r.map (fun e => if e.1 == k then (k, v) else e)
  else r ++ [(k, v)]

/-- `Map.delete`. -/
def Registry.del (r : Registry) (k : String) : Registry :=
  r.filter (fun e => !(e.1 == k))

/-- Number of entries with the given key. -/
def Registry.keyCount (r : Registry) (k : String) : Nat :=
  (r.filter (fun e => e.1 == k)).length

/-- The registry invariant: no key occurs twice. -/
def Registry.atMostOnePerKey (r : Registry) : Prop :=
  ∀ k, r.keyCount k ≤ 1

/-- Module-level mutable state of index.ts relevant to scheduling. -/
structure SchedState where
  activeLocks : Registry
  activeAgentCount : Int
deriving DecidableEq

/-- Ticket details as fetched from the board (`TicketDetails` in config.ts). -/
structure TicketDetails where
  id : String
  title : String
  project : String
  status : String
  description : String
  bodyBlocks : String
  spec : Option String
  impact : Option String
deriving DecidableEq

/-- notion.ts `truncate`. -/
def truncate (s : String) (maxLen : Nat) : String :=
  if s.length ≤ maxLen then s else s.take (maxLen - 3) ++ "..."

/-- Board-visible effect of notion.ts `writeFailure`: status and impact
property written to the ticket. -/
structure BoardUpdate where
  status : String
  impact : String
deriving DecidableEq

/-- notion.ts `writeFailure`: move to Failed and write the truncated error. -/
def writeFailureUpdate (error : String) : BoardUpdate :=
  { status := COLUMNS.failed, impact := truncate ("ERROR: " ++ error) 2000 }

/-- index.ts `handleTicket`: the "Unknown project" failure text. -/
def unknownProjectMsg (project : String) (known : List String) : String :=
  "Unknown project: \"" ++ project ++ "\". Available projects: " ++
    String.intercalate ", " known ++
    ". Check that the Notion Project field matches projects.json exactly (case-sensitive)."

/-- Result of the awaited agent run inside `handleTicket` (the callee's
normal return or thrown error). -/
inductive RunOutcome where
  | success
  | failure (msg : String)
deriving DecidableEq

/-- Externally visible actions of `handleTicket`.  The agent run itself is
abstracted to a single event (its internal actions are modelled separately
in `runExecuteAgent`); the review-failure audit comment is recorded with
its error message (formatting and duration omitted). -/
inductive SchedEvent where
  | boardFailure (id : String) (update : BoardUpdate)
  | lockRegistered (id : String) (entry : LockEntry)
  | agentRun (mode : Mode) (id : String)
  | reviewFailureComment (id msg : String)
  | lockReleased (id : String)
deriving DecidableEq

/-- index.ts `handleTicket`: lock check, project check, lock registration,
agent run with catch (failure comment for review plus `writeFailure`, whose
own error is swallowed), and the finally block releasing the lock.  Returns
the final state, the event trace, and the intermediate states after each
registry mutation. -/
def handleTicket (ps : ProjectsFile) (mode : Mode) (ticket : TicketDetails)
    (now : Int) (outcome : RunOutcome) (st : SchedState) :
    SchedState × List SchedEvent × List SchedState :=
  if st.activeLocks.hasKey ticket.id then (st, [], [])
  else if jsFalsyOptStr (getProjectDir ps ticket.project) then
    (st, [.boardFailure ticket.id (writeFailureUpdate
       (unknownProjectMsg ticket.project (getProjectNames ps)))], [])
  else
    let entry : LockEntry := { mode := mode, startedAt := now }
    let st1 : SchedState :=
      { activeLocks := st.activeLocks.set ticket.id entry
        activeAgentCount := st.activeAgentCount + 1 }
    let bodyEvents : List SchedEvent :=
      match outcome with
      | .success => [.agentRun mode ticket.id]
      | .failure msg =>
        [.agentRun mode ticket.id] ++
          (if mode = .review then [.reviewFailureComment ticket.id msg] else []) ++
          [.boardFailure ticket.id (writeFailureUpdate msg)]
    let st2 : SchedState :=
      { activeLocks := st1.activeLocks.del ticket.id
        activeAgentCount := st1.activeAgentCount - 1 }
    (st2, [.lockRegistered ticket.id entry] ++ bodyEvents ++ [.lockReleased ticket.id],
     [st1, st2])

/-! Registry lemmas shared by the scheduler claims. -/

theorem hasKey_false_keyCount (r : Registry) (k : String) (h : r.hasKey k = false) :
    r.keyCount k = 0 := by
  simp only [Registry.hasKey, List.any_eq_false] at h
  simp only [Registry.keyCount]
  rw [List.filter_eq_nil_iff.mpr]
  · rfl
  · intro e he
    simpa using h e he

theorem set_append (r : Registry) (k : String) (v : LockEntry)
    (h : r.hasKey k = false) : r.set k v = r ++ [(k, v)] := by
  simp [Registry.set, h]

theorem del_append_single (r : Registry) (k : String) (v : LockEntry)
    (h : r.hasKey k = false) : (r ++ [(k, v)]).del k = r := by
  simp only [Registry.hasKey, List.any_eq_false] at h
  simp only [Registry.del, List.filter_append]
  rw [List.filter_eq_self.mpr, List.filter_eq_nil_iff.mpr]
  · simp
  · simp
  · intro e he
    simpa using h e he

theorem keyCount_append (r s : Registry) (k : String) :
    (r ++ s).keyCount k = r.keyCount k + s.keyCount k := by
  simp [Registry.keyCount, List.filter_append]

theorem keyCount_del_le (r : Registry) (k0 k : String) :
    (r.del k0).keyCount k ≤ r.keyCount k := by
  simp only [Registry.keyCount, Registry.del]
  exact ((List.filter_sublist r).filter _).length_le

/-! ## Claim C2: at most one in-flight job per ticket -/

/-- C2: the in-flight registry never holds two jobs for one ticket: a call
of `handleTicket` for an already-registered ticket ID is a no-op that
starts no job (empty trace); every intermediate registry state produced by
a run keeps at most one entry per key; and on the locking path the lock is
deleted as the terminal step for every outcome — the final registry equals
the initial one and the last event is the lock release. -/
theorem at_most_one_job_per_ticket :
    (∀ ps mode t now outcome (st : SchedState),
       st.activeLocks.hasKey t.id = true →
       handleTicket ps mode t now outcome st = (st, [], [])) ∧
    (∀ ps mode t now outcome (st : SchedState),
       st.activeLocks.atMostOnePerKey →
       ∀ r ∈ (handleTicket ps mode t now outcome st).2.2,
         r.activeLocks.atMostOnePerKey) ∧
    (∀ ps mode t now outcome (st : SchedState),
       st.activeLocks.hasKey t.id = false →
       jsFalsyOptStr (getProjectDir ps t.project) = false →
       (handleTicket ps mode t now outcome st).1.activeLocks = st.activeLocks ∧
       (handleTicket ps mode t now outcome st).2.1.getLast? =
         some (.lockReleased t.id)) := by
  refine ⟨?_, ?_, ?_⟩
  · intro ps mode t now outcome st h
    simp [handleTicket, h]
  · intro ps mode t now outcome st hinv r hr
    by_cases h1 : st.activeLocks.hasKey t.id
    · simp [handleTicket, h1] at hr
    · by_cases h2 : jsFalsyOptStr (getProjectDir ps t.project)
      · simp [handleTicket, h1, h2] at hr
      · simp only [handleTicket, h1, h2, Bool.false_eq_true, if_false,
          List.mem_cons, List.mem_singleton, List.not_mem_nil, or_false] at hr
        have happ : (st.activeLocks.set t.id ⟨mode, now⟩).atMostOnePerKey := by
          intro k
          rw [set_append _ _ _ (by simpa using h1), keyCount_append]
          by_cases hk : k = t.id
          · subst hk
            rw [hasKey_false_keyCount _ _ (by simpa using h1)]
            simp [Registry.keyCount]
          · have : Registry.keyCount [(t.id, ⟨mode, now⟩)] k = 0 := by
              simp [Registry.keyCount, List.filter, Ne.symm hk,
                show (t.id == k) = false by simpa using Ne.symm hk]
            rw [this]
            simpa using hinv k
        rcases hr with hr | hr
        · rw [hr]
          exact happ
        · rw [hr]
          intro k
          exact le_trans (keyCount_del_le _ _ _) (happ k)
  · intro ps mode t now outcome st h1 h2
    constructor
    · simp only [handleTicket, h1, Bool.false_eq_true, if_false, h2]
      rw [set_append _ _ _ h1, del_append_single _ _ _ h1]
    · simp only [handleTicket, h1, Bool.false_eq_true, if_false, h2]
      rw [List.getLast?_append]
      rfl

/-! Concrete scenario data shared by the scheduler witnesses. -/

def demoProjects : ProjectsFile :=
  [("Alpha", { directory := "/tmp/alpha", buildCommand := some "npm run build",
               baseBranch := none, blockedFiles := ["secrets/**"], skipPR := false })]

def demoTicket : TicketDetails :=
  { id := "t1", title := "Fix login bug", project := "Alpha", status := "Execute",
    description := "", bodyBlocks := "", spec := none, impact := none }

def bogusTicket : TicketDetails :=
  { id := "t2", title := "Mystery", project := "Bogus", status := "Execute",
    description := "", bodyBlocks := "", spec := none, impact := none }

/-- Witness for C2 at concrete inputs: a locked ticket is a no-op; an
intermediate registry state of a run from the empty registry has at most
one "t1" entry; a failing run still ends with the lock released and the
registry restored. -/
theorem at_most_one_job_per_ticket_witness :
    handleTicket demoProjects .review demoTicket 0 .success
        ⟨[("t1", ⟨.review, 0⟩)], 1⟩ = (⟨[("t1", ⟨.review, 0⟩)], 1⟩, [], []) ∧
    (⟨[("t1", ⟨Mode.review, 0⟩)], 1⟩ : SchedState).activeLocks.keyCount "t1" ≤ 1 ∧
    (handleTicket demoProjects .review demoTicket 0 (.failure "boom")
        ⟨[], 0⟩).1.activeLocks = [] ∧
    (handleTicket demoProjects .review demoTicket 0 (.failure "boom")
        ⟨[], 0⟩).2.1.getLast? = some (.lockReleased "t1") :=
  ⟨at_most_one_job_per_ticket.1 demoProjects .review demoTicket 0 .success
     ⟨[("t1", ⟨.review, 0⟩)], 1⟩ rfl,
   at_most_one_job_per_ticket.2.1 demoProjects .review demoTicket 0 .success
     ⟨[], 0⟩ (fun k => Nat.zero_le 1) ⟨[("t1", ⟨Mode.review, 0⟩)], 1⟩ (by decide) "t1",
   (at_most_one_job_per_ticket.2.2 demoProjects .review demoTicket 0 (.failure "boom")
     ⟨[], 0⟩ rfl rfl).1,
   (at_most_one_job_per_ticket.2.2 demoProjects .review demoTicket 0 (.failure "boom")
     ⟨[], 0⟩ rfl rfl).2⟩

/-! ## Claim C8: unknown project short-circuits before any lock -/

set_option maxRecDepth 40000 in
/-- C8: when the ticket's project does not resolve (absent from
projects.json, or with a falsy directory), `handleTicket` writes a Failed
status with the "Unknown project" message listing the known project names
directly to the board and returns: the state (registry and agent count) is
unchanged, no lock is ever taken (no intermediate states), and no agent
runs.  The concrete conjuncts show the exact board update for project
"Bogus" with known project "Alpha". -/
theorem unknown_project_short_circuits :
    (∀ ps mode t now outcome (st : SchedState),
       st.activeLocks.hasKey t.id = false →
       jsFalsyOptStr (getProjectDir ps t.project) = true →
       handleTicket ps mode t now outcome st =
         (st, [.boardFailure t.id (writeFailureUpdate
            (unknownProjectMsg t.project (getProjectNames ps)))], [])) ∧
    (writeFailureUpdate (unknownProjectMsg "Bogus" ["Alpha"])).status = "Failed" ∧
    (writeFailureUpdate (unknownProjectMsg "Bogus" ["Alpha"])).impact =
      "ERROR: Unknown project: \"Bogus\". Available projects: Alpha. Check that the Notion Project field matches projects.json exactly (case-sensitive)." := by
  refine ⟨?_, rfl, rfl⟩
  intro ps mode t now outcome st h1 h2
  simp [handleTicket, h1, h2]

/-- Witness for C8: the "Bogus" ticket against the registry containing only
project "Alpha". -/
theorem unknown_project_short_circuits_witness :
    handleTicket demoProjects .execute bogusTicket 5 .success ⟨[], 0⟩ =
      (⟨[], 0⟩, [.boardFailure "t2" (writeFailureUpdate
         (unknownProjectMsg "Bogus" ["Alpha"]))], []) :=
  unknown_project_short_circuits.1 demoProjects .execute bogusTicket 5 .success ⟨[], 0⟩ rfl rfl

/-! ## index.ts: `clearStaleLocks` and the poll cycle -/

/-- Ticket summary as returned by `fetchTicketsByStatus`
(`NotionTicket` in config.ts). -/
structure NotionTicket where
  id : String
  title : String
  project : String
  status : String
deriving DecidableEq

/-- index.ts `clearStaleLocks`: delete every registry entry with
`now - startedAt > STALE_LOCK_MS` (deleting while iterating a JS Map visits
every entry, so this is a filter). -/
def clearStaleLocks (cfg : Config) (now : Int) (locks : Registry) : Registry :=
  locks.filter (fun e => ! decide (now - e.2.startedAt > cfg.staleLockMs))

/-- Inputs of one poll cycle: flags, the clock, and the two queues as
returned by the board API (in API order). -/
structure PollEnv where
  shuttingDown : Bool
  dryRun : Bool
  now : Int
  reviewTickets : List NotionTicket
  executeTickets : List NotionTicket
deriving DecidableEq

/-- index.ts `poll`: skip under shutdown; reap stale locks; filter both
queues against the registry; in dry-run stop after logging; otherwise
concatenate review-then-execute candidates, compute
`availableSlots = MAX_CONCURRENT_AGENTS - activeLocks.size`, and dispatch
the prefix of length `max 0 availableSlots` (`slice(0, …)`).  Returns the
updated state and the dispatched (mode, ticket) list; board fetch errors
are caught at the cycle boundary and produce no dispatch, which is the
`([], no-op)` case of an empty environment. -/
def poll (cfg : Config) (env : PollEnv) (st : SchedState) :
    SchedState × List (Mode × NotionTicket) :=
  if env.shuttingDown then (st, [])
  else
    let locks := clearStaleLocks cfg env.now st.activeLocks
    let pendingReview := env.reviewTickets.filter (fun t => !(locks.hasKey t.id))
    let pendingExecute := env.executeTickets.filter (fun t => !(locks.hasKey t.id))
    let st1 : SchedState := { st with activeLocks := locks }
    if env.dryRun then (st1, [])
    else
      let allPendingTickets : List (Mode × NotionTicket) :=
        pendingReview.map (fun t => (Mode.review, t)) ++
          pendingExecute.map (fun t => (Mode.execute, t))
      let availableSlots : Int := (cfg.maxConcurrentAgents : Int) - locks.length
      let ticketsToProcess := allPendingTickets.take (max 0 availableSlots).toNat
      (st1, ticketsToProcess)

/-- Spec-side admission (refinement target for C3), following the spec's
words: the candidate list is all pending review-queue tickets followed by
all pending execute-queue tickets, each in API order, filtered against the
in-flight registry; admission takes the prefix of length
`max 0 (MAX_CONCURRENT − inFlightCount)`. -/
def specAdmission (cfg : Config) (env : PollEnv) (locks : Registry) :
    List (Mode × NotionTicket) :=
  let candidates : List (Mode × NotionTicket) :=
    (env.reviewTickets.filter (fun t => !(locks.hasKey t.id))).map
        (fun t => (Mode.review, t)) ++
      (env.executeTickets.filter (fun t => !(locks.hasKey t.id))).map
        (fun t => (Mode.execute, t))
  candidates.take (max 0 ((cfg.maxConcurrentAgents : Int) - locks.length)).toNat

/-! ## Claim C3: admission is the exact bounded prefix -/

/-- C3: in every poll cycle the dispatched jobs are exactly the prefix of
the combined review-then-execute candidate list (filtered against the
registry) of length `max 0 (MAX_CONCURRENT − in-flight count)`; the number
dispatched is always bounded by that budget; and in the concrete scenario
with 2 review and 3 execute candidates, `MAX_CONCURRENT = 3` and an empty
registry, exactly the two review tickets and the first execute ticket are
admitted. -/
theorem poll_admission_exact_prefix :
    (∀ cfg env (st : SchedState), env.shuttingDown = false → env.dryRun = false →
       (poll cfg env st).2 =
         specAdmission cfg env (clearStaleLocks cfg env.now st.activeLocks)) ∧
    (∀ cfg env (st : SchedState),
       ((poll cfg env st).2.length : Int) ≤
         max 0 ((cfg.maxConcurrentAgents : Int) -
           (clearStaleLocks cfg env.now st.activeLocks).length)) ∧
    (∀ r1 r2 e1 e2 e3 : NotionTicket,
       (poll theConfig
          { shuttingDown := false, dryRun := false, now := 0,
            reviewTickets := [r1, r2], executeTickets := [e1, e2, e3] }
          ⟨[], 0⟩).2 = [(.review, r1), (.review, r2), (.execute, e1)]) := by
  refine ⟨?_, ?_, ?_⟩
  · intro cfg env st hs hd
    simp [poll, hs, hd, specAdmission]
  · intro cfg env st
    by_cases hs : env.shuttingDown
    · simp [poll, hs]
    · by_cases hd : env.dryRun
      · simp [poll, hs, hd]
      · simp only [poll, hs, hd, Bool.false_eq_true, if_false]
        calc ((List.take _ _).length : Int)
            ≤ ((max 0 ((cfg.maxConcurrentAgents : Int) -
                (clearStaleLocks cfg env.now st.activeLocks).length)).toNat : Int) := by
              exact_mod_cast Nat.cast_le.mpr (List.length_take_le _ _)
          _ = max 0 ((cfg.maxConcurrentAgents : Int) -
                (clearStaleLocks cfg env.now st.activeLocks).length) := by
              rw [Int.toNat_of_nonneg (le_max_left _ _)]
  · intro r1 r2 e1 e2 e3
    simp [poll, clearStaleLocks, specAdmission, Registry.hasKey, theConfig]

/-- Witness for C3 at concrete inputs. -/
theorem poll_admission_exact_prefix_witness :
    (poll theConfig
       { shuttingDown := false, dryRun := false, now := 0,
         reviewTickets := [⟨"r1", "", "Alpha", "Review"⟩, ⟨"r2", "", "Alpha", "Review"⟩],
         executeTickets := [⟨"e1", "", "Alpha", "Execute"⟩, ⟨"e2", "", "Alpha", "Execute"⟩,
                            ⟨"e3", "", "Alpha", "Execute"⟩] }
       ⟨[], 0⟩).2 =
      specAdmission theConfig
        { shuttingDown := false, dryRun := false, now := 0,
          reviewTickets := [⟨"r1", "", "Alpha", "Review"⟩, ⟨"r2", "", "Alpha", "Review"⟩],
          executeTickets := [⟨"e1", "", "Alpha", "Execute"⟩, ⟨"e2", "", "Alpha", "Execute"⟩,
                             ⟨"e3", "", "Alpha", "Execute"⟩] }
        (clearStaleLocks theConfig 0 []) :=
  poll_admission_exact_prefix.1 theConfig _ ⟨[], 0⟩ rfl rfl

/-! ## Claim C4: stale locks are reaped before slots are computed -/

/-- C4: `clearStaleLocks` keeps exactly the entries with
`now − startedAt ≤ STALE_LOCK_MS`; `poll` stores the reaped registry (for
every non-shutdown cycle, dry-run included), and its admission budget is
computed from the reaped registry; concretely, with `MAX_CONCURRENT = 3`,
a registry holding one stale and one fresh lock admits two of three
candidates — the stale entry neither counts against the budget nor blocks
its own ticket from being re-admitted. -/
theorem stale_locks_reaped_before_admission :
    (∀ cfg now (locks : Registry) (e : String × LockEntry),
       e ∈ clearStaleLocks cfg now locks ↔
         e ∈ locks ∧ now - e.2.startedAt ≤ cfg.staleLockMs) ∧
    (∀ cfg env (st : SchedState), env.shuttingDown = false →
       (poll cfg env st).1.activeLocks =
         clearStaleLocks cfg env.now st.activeLocks) ∧
    (∀ cfg env (st : SchedState), env.shuttingDown = false → env.dryRun = false →
       (poll cfg env st).2 =
         specAdmission cfg env (clearStaleLocks cfg env.now st.activeLocks) ∧
       ((poll cfg env st).2.length : Int) ≤
         max 0 ((cfg.maxConcurrentAgents : Int) -
           (clearStaleLocks cfg env.now st.activeLocks).length)) ∧
    (poll theConfig
       { shuttingDown := false, dryRun := false, now := 30 * 60 * 1000 + 1,
         reviewTickets := [⟨"stale", "", "Alpha", "Review"⟩, ⟨"x", "", "Alpha", "Review"⟩,
                           ⟨"y", "", "Alpha", "Review"⟩],
         executeTickets := [] }
       ⟨[("stale", ⟨.execute, 0⟩), ("fresh", ⟨.review, 30 * 60 * 1000⟩)], 2⟩).2 =
      [(.review, ⟨"stale", "", "Alpha", "Review"⟩),
       (.review, ⟨"x", "", "Alpha", "Review"⟩)] := by
  refine ⟨?_, ?_, ?_, ?_⟩
  · intro cfg now locks e
    simp [clearStaleLocks, List.mem_filter, not_lt]
  · intro cfg env st hs
    by_cases hd : env.dryRun <;> simp [poll, hs, hd]
  · intro cfg env st hs hd
    constructor
    · simp [poll, hs, hd, specAdmission]
    · simp only [poll, hs, hd, Bool.false_eq_true, if_false]
      calc ((List.take _ _).length : Int)
          ≤ ((max 0 ((cfg.maxConcurrentAgents : Int) -
              (clearStaleLocks cfg env.now st.activeLocks).length)).toNat : Int) := by
            exact_mod_cast Nat.cast_le.mpr (List.length_take_le _ _)
        _ = max 0 ((cfg.maxConcurrentAgents : Int) -
              (clearStaleLocks cfg env.now st.activeLocks).length) := by
            rw [Int.toNat_of_nonneg (le_max_left _ _)]
  · simp [poll, clearStaleLocks, specAdmission, Registry.hasKey, theConfig]

/-- Concrete poll-cycle inputs shared by the C4 witness. -/
def demoPollEnv : PollEnv :=
  { shuttingDown := false, dryRun := false, now := 30 * 60 * 1000 + 1,
    reviewTickets := [⟨"stale", "", "Alpha", "Review"⟩, ⟨"x", "", "Alpha", "Review"⟩,
                      ⟨"y", "", "Alpha", "Review"⟩],
    executeTickets := [] }

def demoPollState : SchedState :=
  ⟨[("stale", ⟨.execute, 0⟩), ("fresh", ⟨.review, 30 * 60 * 1000⟩)], 2⟩

/-- Witness for C4 at concrete inputs: a live cycle's dispatch equals the
spec-side admission over the reaped registry and obeys the budget. -/
theorem stale_locks_reaped_before_admission_witness :
    (poll theConfig demoPollEnv demoPollState).2 =
      specAdmission theConfig demoPollEnv
        (clearStaleLocks theConfig demoPollEnv.now demoPollState.activeLocks) ∧
    (((poll theConfig demoPollEnv demoPollState).2.length : Int) ≤
      max 0 ((theConfig.maxConcurrentAgents : Int) -
        (clearStaleLocks theConfig demoPollEnv.now demoPollState.activeLocks).length)) :=
  stale_locks_reaped_before_admission.2.2.1 theConfig demoPollEnv demoPollState rfl rfl

/-! ## Workspace manager: git worktree helpers

Shell and filesystem calls are modelled by oracle environments giving each
call's outcome; the actions attempted are recorded in order. -/

inductive GitAction where
  | mkdirWorktrees (projectDir : String)
  | gitignoreEnsured (projectDir : String)
  | staleWorktreeRemove (dir : String)
  | rmrf (dir : String)
  | worktreePrune (projectDir : String)
  | fetchBase (projectDir base : String)
  | worktreeAddNewBranch (dir branch base : String)
  | worktreeAddExisting (dir branch : String)
  | worktreeRemove (dir : String)
deriving DecidableEq

/-- Outcomes of the external calls made while creating a worktree. -/
structure WorktreeEnv where
  worktreeExists : Bool
  staleRemoveOk : Bool
  fetchOk : Bool
  addNewBranchOk : Bool
  addExistingOk : Bool
deriving DecidableEq

/-- Modelled from the spec: the current `utils.ts` `createWorktree` is not
under `src/` — only the caller in index.ts (which passes a fourth
`baseBranch` argument and notes that the base is fetched first, matching
the README) and an older three-argument version are present.  Spec §4.5
and §4.4: ensure the container directory exists and is gitignored;
force-remove a stale workspace at the target path (with
filesystem-deletion-plus-prune fallback); fetch the base branch fresh from
the remote; create the worktree on a new branch based on the fetched base,
falling back to attaching to an existing branch of the same name; the spec
does not fix behavior on fetch failure, so the fetch is modelled as
best-effort. -/
def createWorktree (projectDir branchName worktreeDir baseBranch : String)
    (env : WorktreeEnv) : List GitAction × Except String Unit :=
  let pre : List GitAction :=
    ([.mkdirWorktrees projectDir, .gitignoreEnsured projectDir] ++
      (if env.worktreeExists then
         if env.staleRemoveOk then [.staleWorktreeRemove worktreeDir]
         else [.staleWorktreeRemove worktreeDir, .rmrf worktreeDir,
               .worktreePrune projectDir]
       else [])) ++
      [.fetchBase projectDir baseBranch,
       .worktreeAddNewBranch worktreeDir branchName baseBranch]
  if env.addNewBranchOk then (pre, .ok ())
  else if env.addExistingOk then
    (pre ++ [.worktreeAddExisting worktreeDir branchName], .ok ())
  else
    (pre ++ [.worktreeAddExisting worktreeDir branchName],
     .error ("Failed to create worktree for branch " ++ branchName))

/-- Outcomes of the external calls made while removing a worktree. -/
structure RemoveEnv where
  primaryRemoveOk : Bool
  rmOk : Bool
  pruneOk : Bool
deriving DecidableEq

/-- utils.ts `removeWorktree`: try `git worktree remove --force`; on any
failure fall back to `rmSync(recursive, force)` and `git worktree prune`,
each in its own try/catch with the error swallowed ("best effort"), so the
function itself never propagates an exception. -/
def removeWorktree (projectDir worktreeDir : String) (env : RemoveEnv) :
    List GitAction × Except String Unit :=
  let primary : Except String Unit :=
    if env.primaryRemoveOk then .ok () else .error "git worktree remove failed"
  match primary with
  | .ok _ => ([.worktreeRemove worktreeDir], .ok ())
  | .error _ =>
    let fallbackRm : Except String Unit :=
      if env.rmOk then .ok () else .error "rmSync failed"
    let fallbackPrune : Except String Unit :=
      if env.pruneOk then .ok () else .error "git worktree prune failed"
    let _ := fallbackRm
    let _ := fallbackPrune
    ([.worktreeRemove worktreeDir, .rmrf worktreeDir, .worktreePrune projectDir],
     .ok ())

/-! ## Blocked-file guardrail -/

/-- Glob matching for blocked-file patterns: literal characters, `?` and
`*` within a path segment, `**` across segments. -/
def globMatch : Nat → List Char → List Char → Bool
  | 0, _, _ => false
  | _ + 1, [], [] => true
  | _ + 1, [], _ :: _ => false
  | fuel + 1, '*' :: '*' :: ps, cs =>
    globMatch fuel ps cs ||
      (match cs with
       | [] => false
       | _ :: cs2 => globMatch fuel ('*' :: '*' :: ps) cs2)
  | fuel + 1, '*' :: ps, cs =>
    globMatch fuel ps cs ||
      (match cs with
       | [] => false
       | c :: cs2 => if c = '/' then false else globMatch fuel ('*' :: ps) cs2)
  | fuel + 1, '?' :: ps, cs =>
    match cs with
    | [] => false
    | c :: cs2 => (c != '/') && globMatch fuel ps cs2
  | fuel + 1, p :: ps, cs =>
    match cs with
    | [] => false
    | c :: cs2 => (p == c) && globMatch fuel ps cs2

/-- Modelled from the spec: `validateNoBlockedFiles` is imported by
index.ts from `lib/utils.js`, but the current utils.ts is not under `src/`
(only the caller is).  Spec §4.4: after the agent finishes, re-verify the
guardrail mechanically by diffing the workspace branch against the base
branch and matching the changed paths against the blocked glob patterns;
the diff result (the changed-file list) is supplied by the environment,
and the violations are the changed files matching at least one pattern. -/
def validateNoBlockedFiles (changedFiles : List String) (patterns : List String) :
    List String :=
  changedFiles.filter (fun f =>
    patterns.any (fun p => globMatch (p.length + f.length + 1) p.data f.data))

/-! ## index.ts: `runExecuteAgent` -/

/-- index.ts `runExecuteAgent`: characters kept verbatim by the title slug
(`[a-z0-9]` after lowercasing). -/
def isSlugChar (c : Char) : Bool :=
  ('a' ≤ c ∧ c ≤ 'z') ∨ ('0' ≤ c ∧ c ≤ '9')

/-- `replace(/[^a-z0-9]+/g, '-')`: each maximal run of non-slug characters
becomes one dash. -/
def squashRuns : Nat → List Char → List Char
  | 0, _ => []
  | _ + 1, [] => []
  | fuel + 1, c :: cs =>
    if isSlugChar c then c :: squashRuns fuel cs
    else '-' :: squashRuns fuel (cs.dropWhile (fun d => !(isSlugChar d)))

/-- `replace(/^-|-$/g, '')`: drop one leading and one trailing dash. -/
def trimOneDash (cs : List Char) : List Char :=
  let cs1 := match cs with
             | '-' :: tl => tl
             | _ => cs
  match cs1.reverse with
  | '-' :: tl => tl.reverse
  | _ => cs1

/-- The short ticket id: the id with dashes removed, first 8 characters. -/
def shortIdOf (id : String) : String :=
  String.mk ((id.data.filter (fun c => c != '-')).take 8)

/-- The title slug: lowercase, squash non-alphanumeric runs to dashes,
trim edge dashes, first 40 characters. -/
def slugOf (title : String) : String :=
  String.mk ((trimOneDash (squashRuns (title.length + 1)
    (title.data.map Char.toLower))).take 40)

/-- `notion/<short-id>/<slug>`. -/
def branchNameOf (t : TicketDetails) : String :=
  "notion/" ++ shortIdOf t.id ++ "/" ++ slugOf t.title

/-- `join(projectDir, '.worktrees', branchName.replace(/\//g, '_'))`. -/
def worktreeDirOf (projectDir branchName : String) : String :=
  projectDir ++ "/.worktrees/" ++
    String.mk (branchName.data.map (fun c => if c = '/' then '_' else c))

/-- `getBaseBranch(project) || getDefaultBranch(projectDir)`: the per-project
override, falling back (also on the empty string) to the detected default
branch, which is an external git query supplied by the environment. -/
def resolveBaseBranch (ps : ProjectsFile) (project : String)
    (defaultBranch : String) : String :=
  match getBaseBranch ps project with
  | some b => if b = "" then defaultBranch else b
  | none => defaultBranch

/-- The build-failure error text of `runExecuteAgent` (stderr detail
captured up to 500 characters). -/
def buildFailureMsg (cmd worktreeDir detail : String) : String :=
  "Build validation failed.\nCommand: " ++ cmd ++ "\nDirectory: " ++ worktreeDir ++
    "\nOutput:\n" ++ truncate detail 500

/-- The blocked-file-violation error text of `runExecuteAgent`. -/
def blockedViolationMsg (violations : List String) : String :=
  "Blocked file violation — the agent modified files that are off-limits:\n" ++
    String.intercalate "\n" (violations.map (fun v => "  - " ++ v)) ++
    "\n\nNo code was pushed. Fix the blocked file patterns in projects.json or adjust the ticket scope."

/-- Outcomes of the external calls of one execute job. -/
structure ExecEnv where
  defaultBranch : String
  worktree : WorktreeEnv
  agentResult : Except String Unit
  buildOk : Bool
  buildFailOutput : String
  changedFiles : List String
  pushOk : Bool
  prOk : Bool
  prUrl : String
  removeEnv : RemoveEnv

/-- Externally visible actions of `runExecuteAgent`, in order. -/
inductive ExecEvent where
  | statusMoved (id status : String)
  | git (a : GitAction)
  | agentRun (id : String)
  | buildRun (cmd : String)
  | blockedFilesChecked (violations : List String)
  | pushInvoked (branch : String)
  | prCreateRun (branch : String)
  | resultsWritten (id branch prUrl : String)
  | commentAdded (id : String)
deriving DecidableEq

/-- The `try` body of `runExecuteAgent` after the worktree exists: agent
run, commit count (informational, no event), build validation gate,
blocked-files gate, push, best-effort PR, board updates and audit comment.
Board-API calls are modelled as succeeding; their failures are caught by
the caller and do not change which gates guard the push. -/
def execTryBody (buildCmd : Option String) (blockedFiles : List String)
    (skipPR : Bool) (t : TicketDetails) (branchName worktreeDir : String)
    (env : ExecEnv) : List ExecEvent × Except String Unit :=
  match env.agentResult with
  | .error sub => ([.agentRun t.id], .error ("Execute agent failed: " ++ sub))
  | .ok _ =>
    let ev1 : List ExecEvent := [.agentRun t.id]
    let buildStep : List ExecEvent × Except String Unit :=
      match buildCmd with
      | some cmd =>
        if env.buildOk then ([.buildRun cmd], .ok ())
        else ([.buildRun cmd],
              .error (buildFailureMsg cmd worktreeDir env.buildFailOutput))
      | none => ([], .ok ())
    match buildStep.2 with
    | .error e => (ev1 ++ buildStep.1, .error e)
    | .ok _ =>
      let ev2 := ev1 ++ buildStep.1
      let blockedStep : List ExecEvent × Except String Unit :=
        if blockedFiles.isEmpty then ([], .ok ())
        else
          let violations := validateNoBlockedFiles env.changedFiles blockedFiles
          if violations.isEmpty then ([.blockedFilesChecked violations], .ok ())
          else ([.blockedFilesChecked violations],
                .error (blockedViolationMsg violations))
      match blockedStep.2 with
      | .error e => (ev2 ++ blockedStep.1, .error e)
      | .ok _ =>
        let ev3 := ev2 ++ blockedStep.1
        if env.pushOk then
          let prEvents : List ExecEvent :=
            if skipPR then [] else [.prCreateRun branchName]
          let prUrl := if skipPR then "" else if env.prOk then env.prUrl else ""
          (ev3 ++ [.pushInvoked branchName] ++ prEvents ++
             [.resultsWritten t.id branchName prUrl,
              .statusMoved t.id COLUMNS.done, .commentAdded t.id], .ok ())
        else (ev3 ++ [.pushInvoked branchName], .error "git push failed")

/-- index.ts `runExecuteAgent`: resolve the project (throwing on a falsy
directory), compute branch and worktree paths, move the ticket to
In Progress, create the isolated worktree, then run the `try` body with a
`catch` posting the failure audit comment and rethrowing, and a `finally`
always removing the worktree.  A worktree-creation failure is thrown
before the `try`, so the finally block does not run there, exactly as in
the source. -/
def runExecuteAgent (ps : ProjectsFile) (t : TicketDetails) (env : ExecEnv) :
    List ExecEvent × Except String Unit :=
  match getProjectDir ps t.project with
  | none => ([], .error ("Unknown project: \"" ++ t.project ++ "\""))
  | some projectDir =>
    if projectDir = "" then
      ([], .error ("Unknown project: \"" ++ t.project ++ "\""))
    else
      let branchName := branchNameOf t
      let worktreeDir := worktreeDirOf projectDir branchName
      let baseBranch := resolveBaseBranch ps t.project env.defaultBranch
      let ev0 : List ExecEvent := [.statusMoved t.id COLUMNS.inProgress]
      let wt := createWorktree projectDir branchName worktreeDir baseBranch env.worktree
      match wt.2 with
      | .error e => (ev0 ++ wt.1.map .git, .error e)
      | .ok _ =>
        let body := execTryBody (getBuildCommand ps t.project)
          (getBlockedFiles ps t.project) (getSkipPR ps t.project) t
          branchName worktreeDir env
        let afterCatch : List ExecEvent × Except String Unit :=
          match body.2 with
          | .ok _ => body
          | .error e => (body.1 ++ [.commentAdded t.id], .error e)
        let rm := removeWorktree projectDir worktreeDir env.removeEnv
        (ev0 ++ wt.1.map .git ++ afterCatch.1 ++ rm.1.map .git, afterCatch.2)

/-! ## Claim C9: workspace removal never throws -/

/-- C9: `removeWorktree` never raises, for any directories and any
filesystem state (any combination of outcomes of the three external
calls), so in particular two successive calls on the same path both return
normally; when the primary `git worktree remove --force` fails, the
best-effort fallback (direct filesystem deletion plus a prune, each itself
guarded) is attempted. -/
theorem removeWorktree_never_throws :
    (∀ (projectDir worktreeDir : String) (env : RemoveEnv),
       (removeWorktree projectDir worktreeDir env).2 = .ok ()) ∧
    (∀ (p w : String) (e1 e2 : RemoveEnv),
       (removeWorktree p w e1).2 = .ok () ∧ (removeWorktree p w e2).2 = .ok ()) ∧
    (∀ (p w : String) (env : RemoveEnv),
       (removeWorktree p w env).1 =
         if env.primaryRemoveOk then [.worktreeRemove w]
         else [.worktreeRemove w, .rmrf w, .worktreePrune p]) := by
  have hok : ∀ (p w : String) (env : RemoveEnv),
      (removeWorktree p w env).2 = .ok () := by
    intro p w env
    by_cases h : env.primaryRemoveOk <;> simp [removeWorktree, h]
  refine ⟨hok, fun p w e1 e2 => ⟨hok p w e1, hok p w e2⟩, ?_⟩
  intro p w env
  by_cases h : env.primaryRemoveOk <;> simp [removeWorktree, h]

/-- Shape of the worktree-creation action trace: the fetch of the base
branch immediately followed by the branch-creating worktree add, in every
environment (shared helper). -/
theorem createWorktree_actions (pd bn wd bb : String) (envw : WorktreeEnv) :
    ∃ mid tail, (createWorktree pd bn wd bb envw).1 =
      ([GitAction.mkdirWorktrees pd, .gitignoreEnsured pd] ++ mid) ++
        [.fetchBase pd bb, .worktreeAddNewBranch wd bn bb] ++ tail := by
  refine ⟨(if envw.worktreeExists then
             if envw.staleRemoveOk then [GitAction.staleWorktreeRemove wd]
             else [.staleWorktreeRemove wd, .rmrf wd, .worktreePrune pd]
           else []), ?_⟩
  by_cases h1 : envw.addNewBranchOk
  · exact ⟨[], by simp [createWorktree, h1]⟩
  · by_cases h2 : envw.addExistingOk
    · exact ⟨[.worktreeAddExisting wd bn], by simp [createWorktree, h1, h2]⟩
    · exact ⟨[.worktreeAddExisting wd bn], by simp [createWorktree, h1, h2]⟩
/-- Worktree creation returns normally when branch creation (or the
attach fallback) succeeds (shared helper). -/
theorem createWorktree_ok (pd bn wd bb : String) (envw : WorktreeEnv)
    (h : envw.addNewBranchOk = true ∨ envw.addExistingOk = true) :
    (createWorktree pd bn wd bb envw).2 = .ok () := by
  rcases h with h | h
  · simp [createWorktree, h]
  · by_cases h1 : envw.addNewBranchOk <;> simp [createWorktree, h1, h]

/-- Concrete ticket exercising the branch-name computation. -/
def execDemoTicket : TicketDetails :=
  { id := "abcd-1234-9999-8888", title := "Fix Login Bug!", project := "Alpha",
    status := "Execute", description := "", bodyBlocks := "", spec := none, impact := none }

/-! ## Claim C5: worktree on a fresh branch from a freshly fetched base -/

/-- C5: whenever the project resolves, the execute job's trace performs the
fetch of the base branch from the remote immediately before creating the
new branch for the worktree (whatever the outcomes of the surrounding
calls), the worktree lives under `<project>/.worktrees/<sanitized-branch>`
checked out on freshly created branch `notion/<short-id>/<slug>`; the
concrete conjuncts pin the branch and path computation.  The worktree
helper itself is modelled from the spec (see `createWorktree`); the caller
side is from index.ts. -/
theorem execute_branch_from_fetched_base :
    (∀ ps (t : TicketDetails) (env : ExecEnv) (pd : String),
       getProjectDir ps t.project = some pd → pd ≠ "" →
       ∃ pre post, (runExecuteAgent ps t env).1 =
         pre ++ [.git (.fetchBase pd (resolveBaseBranch ps t.project env.defaultBranch)),
                 .git (.worktreeAddNewBranch (worktreeDirOf pd (branchNameOf t))
                   (branchNameOf t) (resolveBaseBranch ps t.project env.defaultBranch))] ++
           post) ∧
    branchNameOf execDemoTicket = "notion/abcd1234/fix-login-bug" ∧
    worktreeDirOf "/tmp/alpha" (branchNameOf execDemoTicket) =
      "/tmp/alpha/.worktrees/notion_abcd1234_fix-login-bug" := by
  refine ⟨?_, rfl, rfl⟩
  intro ps t env pd hp hpd
  obtain ⟨mid, tail, hwt⟩ := createWorktree_actions pd (branchNameOf t)
    (worktreeDirOf pd (branchNameOf t))
    (resolveBaseBranch ps t.project env.defaultBranch) env.worktree
  simp only [runExecuteAgent, hp, hpd, if_false, ite_false]
  cases hres : (createWorktree pd (branchNameOf t) (worktreeDirOf pd (branchNameOf t))
      (resolveBaseBranch ps t.project env.defaultBranch) env.worktree).2 with
  | error e =>
    refine ⟨[ExecEvent.statusMoved t.id COLUMNS.inProgress] ++
      (([GitAction.mkdirWorktrees pd, GitAction.gitignoreEnsured pd] ++ mid).map ExecEvent.git),
      tail.map ExecEvent.git, ?_⟩
    simp [hwt, List.append_assoc]
  | ok u =>
    generalize execTryBody (getBuildCommand ps t.project)
      (getBlockedFiles ps t.project) (getSkipPR ps t.project) t
      (branchNameOf t) (worktreeDirOf pd (branchNameOf t)) env = body
    cases hbody : body.2 with
    | ok v =>
      refine ⟨[ExecEvent.statusMoved t.id COLUMNS.inProgress] ++
        (([GitAction.mkdirWorktrees pd, GitAction.gitignoreEnsured pd] ++ mid).map ExecEvent.git),
        tail.map ExecEvent.git ++ body.1 ++
          (removeWorktree pd (worktreeDirOf pd (branchNameOf t)) env.removeEnv).1.map
            ExecEvent.git, ?_⟩
      simp [hwt, hbody, List.append_assoc]
    | error e =>
      refine ⟨[ExecEvent.statusMoved t.id COLUMNS.inProgress] ++
        (([GitAction.mkdirWorktrees pd, GitAction.gitignoreEnsured pd] ++ mid).map ExecEvent.git),
        tail.map ExecEvent.git ++ (body.1 ++ [ExecEvent.commentAdded t.id]) ++
          (removeWorktree pd (worktreeDirOf pd (branchNameOf t)) env.removeEnv).1.map
            ExecEvent.git, ?_⟩
      simp [hwt, hbody, List.append_assoc]
/-- Inside the execute try body, a failing build gate or a blocked-file
violation yields an error before any push event (shared helper). -/
theorem execTryBody_gate_failure (buildCmd : Option String)
    (blockedFiles : List String) (skipPR : Bool) (t : TicketDetails)
    (branchName worktreeDir : String) (env : ExecEnv)
    (hgate : (buildCmd ≠ none ∧ env.buildOk = false) ∨
             (blockedFiles ≠ [] ∧
              validateNoBlockedFiles env.changedFiles blockedFiles ≠ [])) :
    (∀ b, ExecEvent.pushInvoked b ∉
        (execTryBody buildCmd blockedFiles skipPR t branchName worktreeDir env).1) ∧
    ∃ e, (execTryBody buildCmd blockedFiles skipPR t branchName worktreeDir env).2 =
      .error e := by
  cases hag : env.agentResult with
  | error sub =>
    exact ⟨fun b => by simp [execTryBody, hag],
           ⟨"Execute agent failed: " ++ sub, by simp [execTryBody, hag]⟩⟩
  | ok _ =>
    have hbfE : blockedFiles ≠ [] → blockedFiles.isEmpty = false := by
      intro h
      cases blockedFiles with
      | nil => exact absurd rfl h
      | cons a l => rfl
    have hvE : validateNoBlockedFiles env.changedFiles blockedFiles ≠ [] →
        (validateNoBlockedFiles env.changedFiles blockedFiles).isEmpty = false := by
      intro h
      cases hv : validateNoBlockedFiles env.changedFiles blockedFiles with
      | nil => exact absurd hv h
      | cons a l => rfl
    rcases hgate with ⟨hcmd, hbuild⟩ | ⟨hbf, hviol⟩
    · obtain ⟨cmd, hc⟩ := Option.ne_none_iff_exists'.mp hcmd
      exact ⟨fun b => by simp [execTryBody, hag, hc, hbuild],
             ⟨buildFailureMsg cmd worktreeDir env.buildFailOutput,
              by simp [execTryBody, hag, hc, hbuild]⟩⟩
    · cases hc : buildCmd with
      | none =>
        exact ⟨fun b => by simp [execTryBody, hag, hc, hbfE hbf, hvE hviol],
               ⟨blockedViolationMsg (validateNoBlockedFiles env.changedFiles blockedFiles),
                by simp [execTryBody, hag, hc, hbfE hbf, hvE hviol]⟩⟩
      | some cmd =>
        by_cases hb : env.buildOk
        · exact ⟨fun b => by simp [execTryBody, hag, hc, hb, hbfE hbf, hvE hviol],
                 ⟨blockedViolationMsg (validateNoBlockedFiles env.changedFiles blockedFiles),
                  by simp [execTryBody, hag, hc, hb, hbfE hbf, hvE hviol]⟩⟩
        · exact ⟨fun b => by simp [execTryBody, hag, hc,
                   Bool.eq_false_iff.mpr hb, hbfE hbf, hvE hviol],
                 ⟨buildFailureMsg cmd worktreeDir env.buildFailOutput,
                  by simp [execTryBody, hag, hc,
                    Bool.eq_false_iff.mpr hb, hbfE hbf, hvE hviol]⟩⟩
/-! ## Claim C1: no push on gate failure, workspace always cleaned -/

/-- C1: if the configured build command exits non-zero, or a blocked-file
pattern matches a file changed relative to the base branch, then no
`git push` is ever invoked during the execute job, the job ends in an
error, and (whenever the job's workspace was created, i.e. the project
resolved) the trace still ends with the finally-block worktree removal. -/
theorem no_push_on_gate_failure :
    ∀ ps (t : TicketDetails) (env : ExecEnv),
      (env.worktree.addNewBranchOk = true ∨ env.worktree.addExistingOk = true) →
      ((getBuildCommand ps t.project ≠ none ∧ env.buildOk = false) ∨
       (getBlockedFiles ps t.project ≠ [] ∧
        validateNoBlockedFiles env.changedFiles (getBlockedFiles ps t.project) ≠ [])) →
      (∀ b, ExecEvent.pushInvoked b ∉ (runExecuteAgent ps t env).1) ∧
      (∃ msg, (runExecuteAgent ps t env).2 = .error msg) ∧
      (∀ pd, getProjectDir ps t.project = some pd → pd ≠ "" →
         ∃ pre, (runExecuteAgent ps t env).1 =
           pre ++ (removeWorktree pd (worktreeDirOf pd (branchNameOf t))
             env.removeEnv).1.map .git) := by
  intro ps t env hwt hgate
  cases hp : getProjectDir ps t.project with
  | none =>
    refine ⟨fun b => by simp [runExecuteAgent, hp],
            ⟨"Unknown project: \"" ++ t.project ++ "\"", by simp [runExecuteAgent, hp]⟩,
            fun pd hpd => by simp [hp] at hpd⟩
  | some pd =>
    by_cases hpe : pd = ""
    · subst hpe
      refine ⟨fun b => by simp [runExecuteAgent, hp],
              ⟨"Unknown project: \"" ++ t.project ++ "\"", by simp [runExecuteAgent, hp]⟩,
              fun pd' hpd' hne => ?_⟩
      cases hpd'
      exact absurd rfl hne
    · have hok := createWorktree_ok pd (branchNameOf t) (worktreeDirOf pd (branchNameOf t))
        (resolveBaseBranch ps t.project env.defaultBranch) env.worktree hwt
      obtain ⟨hnopush, e, hbody⟩ := execTryBody_gate_failure (getBuildCommand ps t.project)
        (getBlockedFiles ps t.project) (getSkipPR ps t.project) t
        (branchNameOf t) (worktreeDirOf pd (branchNameOf t)) env hgate
      refine ⟨?_, ?_, ?_⟩
      · intro b hmem
        simp [runExecuteAgent, hp, hpe, hok, hbody] at hmem
        exact hnopush b hmem
      · exact ⟨e, by simp [runExecuteAgent, hp, hpe, hok, hbody]⟩
      · intro pd' hpd' hne
        cases hpd'
        refine ⟨[ExecEvent.statusMoved t.id COLUMNS.inProgress] ++
          (createWorktree pd (branchNameOf t) (worktreeDirOf pd (branchNameOf t))
            (resolveBaseBranch ps t.project env.defaultBranch) env.worktree).1.map
              ExecEvent.git ++
          ((execTryBody (getBuildCommand ps t.project) (getBlockedFiles ps t.project)
              (getSkipPR ps t.project) t (branchNameOf t)
              (worktreeDirOf pd (branchNameOf t)) env).1 ++
            [ExecEvent.commentAdded t.id]), ?_⟩
        simp [runExecuteAgent, hp, hpe, hok, hbody, List.append_assoc]
/-- Concrete execute-job environment: the agent succeeds and the build
passes, but the agent touched `secrets/key.pem`, which matches the blocked
pattern `secrets/**` of the demo project. -/
def demoExecEnv : ExecEnv :=
  { defaultBranch := "main",
    worktree := { worktreeExists := false, staleRemoveOk := true, fetchOk := true,
                  addNewBranchOk := true, addExistingOk := true },
    agentResult := .ok (), buildOk := true, buildFailOutput := "",
    changedFiles := ["secrets/key.pem", "src/app.ts"],
    pushOk := true, prOk := true, prUrl := "https://example.com/pr/1",
    removeEnv := { primaryRemoveOk := true, rmOk := true, pruneOk := true } }

/-- Witness for C1: with the blocked-file gate tripped, the push event is
absent, the job errs, and the finally-block removal action is in the
trace. -/
theorem no_push_on_gate_failure_witness :
    ExecEvent.pushInvoked (branchNameOf demoTicket) ∉
      (runExecuteAgent demoProjects demoTicket demoExecEnv).1 ∧
    (runExecuteAgent demoProjects demoTicket demoExecEnv).2 ≠ .ok () ∧
    ExecEvent.git (.worktreeRemove (worktreeDirOf "/tmp/alpha" (branchNameOf demoTicket))) ∈
      (runExecuteAgent demoProjects demoTicket demoExecEnv).1 := by
  have h := no_push_on_gate_failure demoProjects demoTicket demoExecEnv
    (Or.inl rfl) (Or.inr ⟨by decide, by decide⟩)
  refine ⟨h.1 _, ?_, ?_⟩
  · obtain ⟨msg, hm⟩ := h.2.1
    simp [hm]
  · obtain ⟨pre, hp⟩ := h.2.2 "/tmp/alpha" rfl (by decide)
    rw [hp]
    simp [removeWorktree, demoExecEnv]

/-- Witness for C5: in the concrete run, the fetch of the base branch and
the branch-creating worktree add both appear in the trace. -/
theorem execute_branch_from_fetched_base_witness :
    ExecEvent.git (.fetchBase "/tmp/alpha"
        (resolveBaseBranch demoProjects execDemoTicket.project demoExecEnv.defaultBranch)) ∈
      (runExecuteAgent demoProjects execDemoTicket demoExecEnv).1 ∧
    ExecEvent.git (.worktreeAddNewBranch
        (worktreeDirOf "/tmp/alpha" (branchNameOf execDemoTicket))
        (branchNameOf execDemoTicket)
        (resolveBaseBranch demoProjects execDemoTicket.project demoExecEnv.defaultBranch)) ∈
      (runExecuteAgent demoProjects execDemoTicket demoExecEnv).1 := by
  obtain ⟨pre, post, heq⟩ := execute_branch_from_fetched_base.1 demoProjects execDemoTicket
    demoExecEnv "/tmp/alpha" rfl (by decide)
  rw [heq]
  constructor <;> simp
end TicketToPR
